import Mathlib

/-!
Verification of the htmap map-controller and component-runner core
(`htmap/maps.py`, `htmap/run/run.py`) against its natural-language
specification.  The Python source is shallowly embedded: each relevant
function becomes an executable Lean definition over explicit state
(the outputs directory is the list of artifact stems present, the
scheduler query result is a list of statuses, time is the number of
one-second sleeps taken so far).
-/

namespace Htmap

/-- Input content hashes are strings. -/
abbrev Hash := String

/-- Embeds `class Status(enum.IntEnum)` from maps.py (the seven HTCondor
job-status values). -/
inductive Status where
  | IDLE
  | RUNNING
  | REMOVED
  | COMPLETED
  | HELD
  | TRANSFERRING_OUTPUT
  | SUSPENDED
deriving DecidableEq, Repr

/-- The Python exceptions that the embedded code can raise. -/
inductive PyErr where
  | MapWasRemoved
  | FileNotFoundError
  | TypeError
  | KeyError
  | IndexError
  | Timeout
  | OutputNotFound
deriving DecidableEq, Repr

/-- Embeds `Map._missing_hashes`: `done` is the set of stems found by
scanning the outputs directory; the result keeps the hashes with no
artifact, in original input order. -/
def missing_hashes (hashes done : List Hash) : List Hash :=
  hashes.filter (fun h => !(done.contains h))

/-- Embeds `Map._completed_hashes`: the hashes whose artifact stem is
present in the outputs directory, in original input order. -/
def completed_hashes (hashes done : List Hash) : List Hash :=
  hashes.filter (fun h => done.contains h)

/-- Embeds `Map.is_done`: true when no hash is missing an artifact. -/
def is_done (hashes done : List Hash) : Bool :=
  (missing_hashes hashes done).length = 0

/-- Lookup in the embedded `collections.Counter` (0 for an absent key,
as in Python). -/
def counter_get (c : List (Status × Nat)) (s : Status) : Nat :=
  match c.find? (fun p => p.1 == s) with
  | some p => p.2
  | none => 0

/-- Assignment `counter[s] = n` on the embedded counter: overwrite the
existing entry for `s`, or append one. -/
def counter_set : List (Status × Nat) → Status → Nat → List (Status × Nat)
  | [], s, n => [(s, n)]
  | p :: rest, s, n =>
      if p.1 == s then (s, n) :: rest else p :: counter_set rest s n

/-- Embeds `collections.Counter(Status(ad['JobStatus']) for ad in query)`:
tabulate one count per status value seen in the live scheduler query. -/
def counter_tabulate (qs : List Status) : List (Status × Nat) :=
  qs.foldl (fun c s => counter_set c s (counter_get c s + 1)) []

/-- Embeds `Map.status_counts`: tabulate the live query, then override
the COMPLETED count with the number of hashes that have an artifact. -/
def status_counts (qs : List Status) (hashes done : List Hash) :
    List (Status × Nat) :=
  counter_set (counter_tabulate qs) Status.COMPLETED
    (completed_hashes hashes done).length

theorem counter_get_nil (s : Status) : counter_get [] s = 0 := rfl

theorem counter_get_cons_eq (p : Status × Nat) (c : List (Status × Nat))
    (s : Status) (h : p.1 = s) : counter_get (p :: c) s = p.2 := by
  simp [counter_get, List.find?_cons, h]

theorem counter_get_cons_ne (p : Status × Nat) (c : List (Status × Nat))
    (s : Status) (h : p.1 ≠ s) : counter_get (p :: c) s = counter_get c s := by
  have h' : (p.1 == s) = false := by simp [h]
  simp [counter_get, List.find?_cons, h']

theorem counter_get_set_same (c : List (Status × Nat)) (s : Status) (n : Nat) :
    counter_get (counter_set c s n) s = n := by
  induction c with
  | nil => simp [counter_set, counter_get_cons_eq]
  | cons p rest ih =>
      by_cases hp : p.1 = s
      · simp [counter_set, hp, counter_get_cons_eq]
      · have hp' : (p.1 == s) = false := by simp [hp]
        rw [counter_set, if_neg (by simp [hp]), counter_get_cons_ne _ _ _ hp, ih]

theorem counter_get_set_ne (c : List (Status × Nat)) (s s' : Status) (n : Nat)
    (h : s' ≠ s) : counter_get (counter_set c s n) s' = counter_get c s' := by
  induction c with
  | nil =>
      rw [counter_set, counter_get_cons_ne _ _ _ (by simpa using Ne.symm h)]
  | cons p rest ih =>
      by_cases hp : p.1 = s
      · rw [counter_set, if_pos (by simp [hp]),
          counter_get_cons_ne _ _ _ (by simpa using Ne.symm h),
          counter_get_cons_ne _ _ _ (fun hc => h (by rw [← hc, hp]))]
      · by_cases hq : p.1 = s'
        · rw [counter_set, if_neg (by simp [hp]),
            counter_get_cons_eq _ _ _ hq, counter_get_cons_eq _ _ _ hq]
        · rw [counter_set, if_neg (by simp [hp]),
            counter_get_cons_ne _ _ _ hq, counter_get_cons_ne _ _ _ hq, ih]

theorem counter_tabulate_count (qs : List Status) (s : Status) :
    counter_get (counter_tabulate qs) s = qs.count s := by
  suffices h : ∀ (l : List Status) (c : List (Status × Nat)) (s : Status),
      counter_get (l.foldl (fun c t => counter_set c t (counter_get c t + 1)) c) s
        = counter_get c s + l.count s by
    simpa [counter_tabulate, counter_get] using h qs [] s
  intro l
  induction l with
  | nil => intro c s; simp
  | cons q rest ih =>
      intro c s
      rw [List.foldl_cons, ih]
      by_cases hq : s = q
      · subst hq
        rw [counter_get_set_same]
        simp [List.count_cons]
        omega
      · rw [counter_get_set_ne _ _ _ _ hq]
        simp [List.count_cons, hq]

theorem contains_iff_mem (l : List Hash) (h : Hash) :
    l.contains h = true ↔ h ∈ l := by
  simp

/-- C1: `status_counts()` tabulates a count per status value from the live
scheduler query and then overrides the COMPLETED count with the number of
hashes that have an Output Store artifact; every other status keeps the
tabulated count from the query.  In particular, for a map with hashes
[a,b,c] where only a.out and c.out exist, the COMPLETED count is 2
regardless of what the scheduler reports. -/
theorem status_counts_overrides_completed
    (qs : List Status) (hashes done : List Hash) :
    counter_get (status_counts qs hashes done) Status.COMPLETED
        = (completed_hashes hashes done).length
    ∧ (∀ s : Status, s ≠ Status.COMPLETED →
        counter_get (status_counts qs hashes done) s = qs.count s)
    ∧ (∀ qs2 : List Status,
        counter_get (status_counts qs2 ["a", "b", "c"] ["a", "c"])
          Status.COMPLETED = 2) := by
  refine ⟨counter_get_set_same _ _ _, ?_, ?_⟩
  · intro s hs
    rw [status_counts, counter_get_set_ne _ _ _ _ hs, counter_tabulate_count]
  · intro qs2
    rw [status_counts, counter_get_set_same]
    decide

/-- C2: for every map and every state of the outputs directory, the
completed-hash list and the missing-hash list are disjoint, their union is
exactly the map's hash sequence (as a permutation, with membership exactly
characterised), and each list preserves the original input order
(each is a sublist of `hashes`); both are pure functions of the current
directory scan. -/
theorem completed_missing_partition (hashes done : List Hash) :
    (completed_hashes hashes done).Sublist hashes
    ∧ (missing_hashes hashes done).Sublist hashes
    ∧ (∀ h, h ∈ completed_hashes hashes done ↔ h ∈ hashes ∧ h ∈ done)
    ∧ (∀ h, h ∈ missing_hashes hashes done ↔ h ∈ hashes ∧ h ∉ done)
    ∧ (∀ h, ¬(h ∈ completed_hashes hashes done ∧ h ∈ missing_hashes hashes done))
    ∧ (∀ h, h ∈ hashes ↔
        (h ∈ completed_hashes hashes done ∨ h ∈ missing_hashes hashes done))
    ∧ (completed_hashes hashes done ++ missing_hashes hashes done).Perm hashes := by
  have hc : ∀ h, h ∈ completed_hashes hashes done ↔ h ∈ hashes ∧ h ∈ done := by
    intro h
    simp [completed_hashes, List.mem_filter, contains_iff_mem]
  have hm : ∀ h, h ∈ missing_hashes hashes done ↔ h ∈ hashes ∧ h ∉ done := by
    intro h
    simp [missing_hashes, List.mem_filter, contains_iff_mem]
  refine ⟨List.filter_sublist _, List.filter_sublist _, hc, hm, ?_, ?_, ?_⟩
  · intro h hand
    exact ((hm h).mp hand.2).2 ((hc h).mp hand.1).2
  · intro h
    constructor
    · intro hmem
      by_cases hd : h ∈ done
      · exact Or.inl ((hc h).mpr ⟨hmem, hd⟩)
      · exact Or.inr ((hm h).mpr ⟨hmem, hd⟩)
    · intro hor
      rcases hor with hl | hr
      · exact ((hc h).mp hl).1
      · exact ((hm h).mp hr).1
  · exact List.filter_append_perm _ hashes

/-- Witness for C2: the scenario map with hashes [a,b,c] and artifacts
for a and c only: completed is [a,c], missing is [b], and b is not in
both lists. -/
theorem completed_missing_partition_witness :
    completed_hashes ["a", "b", "c"] ["a", "c"] = ["a", "c"]
    ∧ missing_hashes ["a", "b", "c"] ["a", "c"] = ["b"]
    ∧ ¬("b" ∈ completed_hashes ["a", "b", "c"] ["a", "c"]
        ∧ "b" ∈ missing_hashes ["a", "b", "c"] ["a", "c"]) :=
  ⟨rfl, rfl, (completed_missing_partition ["a", "b", "c"] ["a", "c"]).2.2.2.2.1 "b"⟩

/-- Witness for C1: instantiates the theorem at a concrete scheduler
report and outputs directory, discharging the inner hypothesis. -/
theorem status_counts_overrides_completed_witness :
    counter_get (status_counts [Status.IDLE] ["a", "b", "c"] ["a", "c"])
        Status.IDLE = [Status.IDLE].count Status.IDLE :=
  (status_counts_overrides_completed [Status.IDLE] ["a", "b", "c"]
      ["a", "c"]).2.1 Status.IDLE (by decide)

/-- The kind of a class member, as seen by `inspect.getmembers` in
`_protect_map_after_remove`: plain functions satisfy
`inspect.isfunction`; properties and classmethods do not. -/
inductive MemberKind where
  | pyfunction
  | pyproperty
  | pyclassmethod
deriving DecidableEq, Repr

/-- The observable state of one `Map` instance: the `_is_removed` flag
and the outputs directory (`none` once `_rm_map_dir` has deleted the
map directory, so that `iterdir` raises `FileNotFoundError`). -/
structure MapState where
  is_removed : Bool
  outputs_dir : Option (List Hash)
deriving DecidableEq, Repr

/-- How a call to a member finishes. -/
inductive CallOutcome where
  | raised (e : PyErr)
  | returned
deriving DecidableEq, Repr

/-- Embeds the public member table of `class Map` from maps.py: every
attribute reachable without a leading underscore, with its kind. -/
def map_public_table : List (String × MemberKind) :=
  [("recover", MemberKind.pyclassmethod),
   ("wait", MemberKind.pyfunction),
   ("get", MemberKind.pyfunction),
   ("iter", MemberKind.pyfunction),
   ("iter_with_inputs", MemberKind.pyfunction),
   ("iter_as_available", MemberKind.pyfunction),
   ("iter_as_available_with_inputs", MemberKind.pyfunction),
   ("status_counts", MemberKind.pyfunction),
   ("status", MemberKind.pyfunction),
   ("hold_reasons", MemberKind.pyfunction),
   ("remove", MemberKind.pyfunction),
   ("hold", MemberKind.pyfunction),
   ("release", MemberKind.pyfunction),
   ("pause", MemberKind.pyfunction),
   ("resume", MemberKind.pyfunction),
   ("vacate", MemberKind.pyfunction),
   ("set_memory", MemberKind.pyfunction),
   ("set_disk", MemberKind.pyfunction),
   ("output", MemberKind.pyfunction),
   ("error", MemberKind.pyfunction),
   ("tail", MemberKind.pyfunction),
   ("rerun", MemberKind.pyfunction),
   ("rerun_incomplete", MemberKind.pyfunction),
   ("rename", MemberKind.pyfunction),
   ("is_done", MemberKind.pyproperty),
   ("is_running", MemberKind.pyproperty)]

/-- Embeds the decoration predicate of `_protect_map_after_remove`:
`inspect.getmembers(cls, predicate = inspect.isfunction)` selects plain
functions only, and the wrapper is installed for keys that do not start
with an underscore (`key.startswith('_')` is modelled on the name's
character list). -/
def starts_with_underscore (name : String) : Bool :=
  match name.data with
  | [] => false
  | c :: _ => c == '_'

def is_protected (name : String) (kind : MemberKind) : Bool :=
  (kind == MemberKind.pyfunction) && !(starts_with_underscore name)

/-- Embeds `_protector`: check `self._is_removed` and raise
`MapWasRemoved` before running the wrapped method (so the state is
untouched on the raise). -/
def protector (body : MapState → CallOutcome × MapState) (st : MapState) :
    CallOutcome × MapState :=
  if st.is_removed then (CallOutcome.raised PyErr.MapWasRemoved, st) else body st

/-- Body of `Map.status_counts`: query the scheduler, then count
`_completed_hashes`, which scans `self._outputs_dir.iterdir()` and so
raises `FileNotFoundError` once the map directory has been deleted. -/
def status_counts_body (st : MapState) : CallOutcome × MapState :=
  match st.outputs_dir with
  | none => (CallOutcome.raised PyErr.FileNotFoundError, st)
  | some _ => (CallOutcome.returned, st)

/-- Body semantics for the members whose behaviour on a removed map the
claims need.  `is_done` reads `_missing_hashes`, an unwrapped private
property that scans `self._outputs_dir.iterdir()`, raising
`FileNotFoundError` once the map directory has been deleted.
`is_running` instead calls `self.status_counts()` — the class attribute,
which the class decorator has already replaced with the
`_protector`-wrapped version — so the removal guard fires inside that
call before any directory scan.  `status_counts` itself carries its raw
body here; `effective_body` adds its wrapper.  Remaining bodies are only
reached on a non-removed map and are summarised as returning normally. -/
def member_body (name : String) (st : MapState) : CallOutcome × MapState :=
  if name = "is_done" then
    match st.outputs_dir with
    | none => (CallOutcome.raised PyErr.FileNotFoundError, st)
    | some _ => (CallOutcome.returned, st)
  else if name = "is_running" then
    protector status_counts_body st
  else if name = "status_counts" then
    status_counts_body st
  else (CallOutcome.returned, st)

/-- Embeds the effect of the `@_protect_map_after_remove` class
decorator: members passing the decoration predicate get the protector
wrapper; all other members keep their raw body. -/
def effective_body (name : String) (kind : MemberKind) :
    MapState → CallOutcome × MapState :=
  if is_protected name kind then protector (member_body name) else member_body name

/-- C3 counterexample: `is_done` is a public operation of `Map` (it is
in the public member table, its name has no leading underscore), yet on
a removed map it does not fail with `MapWasRemoved`: the decorator only
wraps plain functions, so the property's body runs and fails with
`FileNotFoundError` from scanning the deleted outputs directory. -/
theorem is_done_not_guarded_counterexample :
    ("is_done", MemberKind.pyproperty) ∈ map_public_table
    ∧ starts_with_underscore "is_done" = false
    ∧ effective_body "is_done" MemberKind.pyproperty ⟨true, none⟩
        = (CallOutcome.raised PyErr.FileNotFoundError, ⟨true, none⟩)
    ∧ PyErr.FileNotFoundError ≠ PyErr.MapWasRemoved := by
  refine ⟨by decide, by decide, ?_, by decide⟩
  rfl

/-- C3 amended: every public operation of `Map` except the property
`is_done` fails with `MapWasRemoved` before any other effect, with no
side effect, on a map whose `is_removed` flag is set: every public
plain-function member (every table entry with kind `pyfunction`, all of
which have names with no leading underscore) is wrapped by the removal
guard directly, and the unwrapped property `is_running` still raises
`MapWasRemoved` through its call to the guard-wrapped `status_counts`
class attribute.  Only `is_done` escapes (the counterexample). -/
theorem public_methods_guarded_after_remove
    (name : String) (kind : MemberKind)
    (hmem : (name, kind) ∈ map_public_table)
    (hkind : kind = MemberKind.pyfunction ∨ name = "is_running")
    (st : MapState) (hrem : st.is_removed = true) :
    effective_body name kind st = (CallOutcome.raised PyErr.MapWasRemoved, st) := by
  rcases hkind with hkind | hname_run
  · have hpub : ∀ p ∈ map_public_table, p.2 = MemberKind.pyfunction →
        starts_with_underscore p.1 = false := by decide
    have hname : starts_with_underscore name = false := hpub (name, kind) hmem hkind
    rw [effective_body, is_protected, hkind]
    simp only [hname, BEq.refl, Bool.not_false, Bool.and_true, if_true]
    rw [protector, if_pos hrem]
  · subst hname_run
    have hkindp : kind = MemberKind.pyproperty := by
      have htab : ∀ p ∈ map_public_table, p.1 = "is_running" →
          p.2 = MemberKind.pyproperty := by decide
      exact htab (("is_running", kind)) hmem rfl
    subst hkindp
    rw [effective_body, if_neg (by decide), member_body,
      if_neg (by decide), if_pos rfl, protector, if_pos hrem]

/-- Witness for C3's amended theorem: calling `remove` a second time on
an already-removed map raises `MapWasRemoved` and leaves the state
unchanged, and so does reading `is_running` (via the guard-wrapped
`status_counts` it calls). -/
theorem public_methods_guarded_after_remove_witness :
    effective_body "remove" MemberKind.pyfunction ⟨true, none⟩
        = (CallOutcome.raised PyErr.MapWasRemoved, ⟨true, none⟩)
    ∧ effective_body "is_running" MemberKind.pyproperty ⟨true, none⟩
        = (CallOutcome.raised PyErr.MapWasRemoved, ⟨true, none⟩) :=
  ⟨public_methods_guarded_after_remove "remove" MemberKind.pyfunction
      (by decide) (Or.inl rfl) ⟨true, none⟩ rfl,
   public_methods_guarded_after_remove "is_running" MemberKind.pyproperty
      (by decide) (Or.inr rfl) ⟨true, none⟩ rfl⟩

/-- A value passed to `set_memory` / `set_disk`: a string, an `int`, or
a `float` (the `pyfloat` constructor carries `str(x)`, the decimal text
Python's f-string interpolation produces for the float; float formatting
itself is not modelled). -/
inductive PyResourceVal where
  | pystr (s : String)
  | pyint (n : Int)
  | pyfloat (repr_text : String)
deriving DecidableEq, Repr

/-- Embeds `isinstance(value, (int, float))`. -/
def is_numeric : PyResourceVal → Bool
  | PyResourceVal.pystr _ => false
  | PyResourceVal.pyint _ => true
  | PyResourceVal.pyfloat _ => true

/-- `str(value)` for the embedded values. -/
def py_str : PyResourceVal → String
  | PyResourceVal.pystr s => s
  | PyResourceVal.pyint n => toString n
  | PyResourceVal.pyfloat r => r

/-- Embeds `Map.set_memory`: a numeric value becomes `f'{memory}MB'`,
then `_edit` sends `('RequestMemory', value)` to the scheduler.  The
result is the (attribute, value) pair passed to `schedd.edit`. -/
def set_memory (memory : PyResourceVal) : String × String :=
  ("RequestMemory",
    match memory with
    | PyResourceVal.pystr s => s
    | v => py_str v ++ "MB")

/-- Embeds `Map.set_disk`: a numeric value becomes `f'{disk}MB'`, then
`_edit` sends `('RequestDisk', value)` to the scheduler. -/
def set_disk (disk : PyResourceVal) : String × String :=
  ("RequestDisk",
    match disk with
    | PyResourceVal.pystr s => s
    | v => py_str v ++ "MB")

/-- C10: for every numeric (int or float) argument `v`, `set_disk(v)`
edits the `RequestDisk` attribute to `str(v) + 'MB'` — megabytes,
exactly the same value transformation as `set_memory`. -/
theorem set_disk_numeric_mb (v : PyResourceVal) (hv : is_numeric v = true) :
    set_disk v = ("RequestDisk", py_str v ++ "MB")
    ∧ (set_disk v).2 = (set_memory v).2 := by
  cases v with
  | pystr s => simp [is_numeric] at hv
  | pyint n => exact ⟨rfl, rfl⟩
  | pyfloat r => exact ⟨rfl, rfl⟩

/-- Witness for C10: `set_disk(100)` edits `RequestDisk` to `'100MB'`. -/
theorem set_disk_numeric_mb_witness :
    set_disk (PyResourceVal.pyint 100)
      = ("RequestDisk", py_str (PyResourceVal.pyint 100) ++ "MB") :=
  (set_disk_numeric_mb (PyResourceVal.pyint 100) rfl).1

/-- Embeds `Map._requirements`: the ClassAd expression
`f"({' || '.join(f'ClusterId=={cid}' for cid in self.cluster_ids)})"`,
with an optional extra clause appended as `' && ' + requirements`. -/
def requirements_expr (cluster_ids : List Nat) (extra : Option String) : String :=
  "(" ++ String.intercalate " || "
      (cluster_ids.map (fun cid => "ClusterId==" ++ toString cid)) ++ ")"
    ++ (match extra with
        | some r => " && " ++ r
        | none => "")

/-- What a call to `Map._query` does to the outside world. -/
inductive QueryEffect where
  | schedulerQuery (req : String) (projection : List String)
  | crash (e : PyErr)
deriving DecidableEq, Repr

/-- Embeds `Map._query`.  The generator body starts with
`if self.cluster_ids is None: yield from ()` — but there is no `return`
after the `yield from`, so execution falls through in every case: with
`cluster_ids = None` the subsequent `' || '.join(... for cid in None)`
raises `TypeError`, and with any list (including the empty list) a live
`schedd.xquery` is issued with the built requirements expression. -/
def map_query (cluster_ids : Option (List Nat)) (reqs : Option String)
    (projection : Option (List String)) : QueryEffect :=
  match cluster_ids with
  | none => QueryEffect.crash PyErr.TypeError
  | some cids =>
      QueryEffect.schedulerQuery (requirements_expr cids reqs)
        (projection.getD [])

/-- C8 (refutation): for a map that owns zero batch ids the status query
does not short-circuit to an empty result.  The `is None` guard does not
fire on the empty list (and lacks a `return` anyway), so `_query` issues
a live scheduler query whose requirements expression is the degenerate
empty disjunction `"()"`; with `cluster_ids = None` the query crashes
with `TypeError` instead of yielding nothing. -/
theorem query_zero_batch_ids_issues_malformed_query :
    map_query (some []) none (some ["JobStatus"])
        = QueryEffect.schedulerQuery "()" ["JobStatus"]
    ∧ requirements_expr [] none = "()"
    ∧ map_query none none none = QueryEffect.crash PyErr.TypeError := by
  refine ⟨rfl, rfl, rfl⟩

/-- One raw traceback frame, as produced by `traceback.walk_tb`:
the code object's filename, the line number, and the function name. -/
structure TbFrame where
  filename : String
  lineno : Nat
  func_name : String
deriving DecidableEq, Repr

/-- One `traceback.FrameSummary` as built inside `main.skip_first`:
filename, line number, name, and the `lookup_line = os.path.exists(fname)`
flag (source-line context is resolved only where the file exists
locally). -/
structure FrameSummary where
  filename : String
  lineno : Nat
  func_name : String
  lookup_line : Bool
deriving DecidableEq, Repr

/-- Embeds the `skip_first` generator from `run.py:main`.  The line that
would drop the first frame of the traceback — `next(iterator)` — is
commented out in the source, so the generator yields a summary for
**every** frame of the walked traceback, the wrapper frame included.
`locally_available` models `os.path.exists`. -/
def skip_first (locally_available : String → Bool) (tb : List TbFrame) :
    List FrameSummary :=
  tb.map (fun f =>
    ⟨f.filename, f.lineno, f.func_name, locally_available f.filename⟩)

/-- C6 (refutation): `skip_first` elides no frame at all.  It preserves
the length of the traceback and its first frame, so on the traceback of
an exception raised by the user's callable — whose first frame is the
runner's own `main` frame (`output = func(*args, **kwargs)` in run.py) —
the first visible frame of the recorded stack summary is the wrapper
frame, not the user's code. -/
theorem skip_first_no_frame_elided :
    (∀ (avail : String → Bool) (tb : List TbFrame),
        (skip_first avail tb).length = tb.length
        ∧ (skip_first avail tb).head?.map FrameSummary.filename
            = tb.head?.map TbFrame.filename)
    ∧ (skip_first (fun _ => false)
          [⟨"/htmap/run/run.py", 165, "main"⟩, ⟨"/home/user/analysis.py", 3, "f"⟩]).head?
        = some ⟨"/htmap/run/run.py", 165, "main", false⟩ := by
  refine ⟨fun avail tb => ⟨List.length_map _ _, ?_⟩, rfl⟩
  cases tb with
  | nil => rfl
  | cons f rest => rfl

/-- The node-identity triple captured by `get_node_info`:
hostname, resolved IP, and the UTC timestamp of execution start
(modelled as a tick count). -/
structure NodeInfo where
  hostname : String
  ip : String
  start_time_utc : Nat
deriving DecidableEq, Repr

/-- The outcome of the whole `try` body of `run.py:main` — loading the
callable and arguments and invoking `func(*args, **kwargs)`: either a
normal return value, or a raised exception with its type name, message
and traceback. -/
inductive PyOutcome where
  | returns (v : String)
  | raises (exc_type : String) (msg : String) (tb : List TbFrame)
deriving Repr

/-- Embeds `traceback.format_exception_only(type, value)` (joined): the
summary line `'{type}: {message}'` naming the exception type. -/
def format_exception_only (exc_type msg : String) : String :=
  exc_type ++ ": " ++ msg

/-- Embeds `ComponentResult` and its two variants from run.py. -/
inductive ComponentResult where
  | Ok (input_hash : Hash) (output : String)
  | Error (input_hash : Hash) (exc_summary : String)
      (stack_summary : List FrameSummary) (node_info : NodeInfo)
      (working_dir_contents : List String)
deriving DecidableEq, Repr

/-- Embeds `run.py:main` for one input hash: capture node info and the
working-directory snapshot, run the `try` body, build either a
`ComponentOk` or a `ComponentError`, and finish with exactly one
`save_output(input_hash, result)`.  The returned list is the sequence
of `(stem, result)` artifact writes the run performs. -/
def run_main (input_hash : Hash) (node_info : NodeInfo)
    (contents : List String) (locally_available : String → Bool)
    (invoke : PyOutcome) : List (Hash × ComponentResult) :=
  let result : ComponentResult :=
    match invoke with
    | PyOutcome.returns v => ComponentResult.Ok input_hash v
    | PyOutcome.raises t m tb =>
        ComponentResult.Error input_hash (format_exception_only t m)
          (skip_first locally_available tb) node_info contents
  [(input_hash, result)]

/-- C5: a single run of the Component Runner writes exactly one result
artifact for its hash regardless of outcome: an `Ok` artifact holding
the return value on normal return, and on a raise an `Error` artifact
whose exception summary starts with the raised exception's type name
and whose `node_info` is the captured node identity — and in the raising
case no `Ok` artifact for that hash is ever written. -/
theorem run_main_single_artifact (input_hash : Hash) (node_info : NodeInfo)
    (contents : List String) (locally_available : String → Bool)
    (invoke : PyOutcome) :
    (run_main input_hash node_info contents locally_available invoke).length = 1
    ∧ (∀ v, invoke = PyOutcome.returns v →
        run_main input_hash node_info contents locally_available invoke
          = [(input_hash, ComponentResult.Ok input_hash v)])
    ∧ (∀ t m tb, invoke = PyOutcome.raises t m tb →
        run_main input_hash node_info contents locally_available invoke
            = [(input_hash,
                ComponentResult.Error input_hash (format_exception_only t m)
                  (skip_first locally_available tb) node_info contents)]
          ∧ (∃ rest, format_exception_only t m = t ++ rest)
          ∧ (∀ w ∈ run_main input_hash node_info contents locally_available invoke,
              ∀ v, w.2 ≠ ComponentResult.Ok input_hash v)) := by
  refine ⟨rfl, ?_, ?_⟩
  · intro v hv
    subst hv
    rfl
  · intro t m tb hraise
    subst hraise
    refine ⟨rfl, ⟨": " ++ m, by simp [format_exception_only, String.append_assoc]⟩, ?_⟩
    intro w hw v
    simp [run_main] at hw
    subst hw
    simp

/-- Witness for C5: a callable raising `ValueError("x")` for hash `h`
produces exactly one artifact, an `Error` whose summary starts with
`"ValueError"`, with the node info populated; no `Ok` artifact. -/
theorem run_main_single_artifact_witness :
    run_main "h" ⟨"node.cluster.edu", "10.0.0.7", 1700000000⟩ ["func", "h.in"]
        (fun _ => false)
        (PyOutcome.raises "ValueError" "x" [⟨"/htmap/run/run.py", 165, "main"⟩])
      = [("h",
          ComponentResult.Error "h" (format_exception_only "ValueError" "x")
            (skip_first (fun _ => false) [⟨"/htmap/run/run.py", 165, "main"⟩])
            ⟨"node.cluster.edu", "10.0.0.7", 1700000000⟩ ["func", "h.in"])] :=
  ((run_main_single_artifact "h" ⟨"node.cluster.edu", "10.0.0.7", 1700000000⟩
      ["func", "h.in"] (fun _ => false)
      (PyOutcome.raises "ValueError" "x" [⟨"/htmap/run/run.py", 165, "main"⟩])).2.2
    "ValueError" "x" [⟨"/htmap/run/run.py", 165, "main"⟩] rfl).1

/-- How a run of the `iter_as_available` generator ends. -/
inductive IterExit where
  | completedAll
  | timeoutBreak
  | fuelExhausted
deriving DecidableEq, Repr

/-- Embeds the `while len(paths) > 0` loop of `Map.iter_as_available`.
`exists_at t h` is whether the artifact for hash `h` exists `t` seconds
after the call started; `t` counts the one-second sleeps taken so far.
Each cycle scans the pending set, yields and removes every hash whose
artifact now exists, then — exactly as in the source — checks
`time.time() > start_time + timeout` and, on expiry, executes a bare
`break` (the generator simply stops; no exception value exists in the
result type), else sleeps one second and repeats.  The result is
(yielded hashes, still-pending hashes, how the loop ended). -/
def iter_as_available_loop (exists_at : Nat → Hash → Bool)
    (timeout : Option Nat) :
    Nat → Nat → List Hash → List Hash → List Hash × List Hash × IterExit
  | 0, _, yielded, pending => (yielded, pending, IterExit.fuelExhausted)
  | fuel + 1, t, yielded, pending =>
      if pending.isEmpty then (yielded, pending, IterExit.completedAll)
      else
        let now := pending.filter (exists_at t)
        let rest := pending.filter (fun h => !(exists_at t h))
        match timeout with
        | some T =>
            if T < t then (yielded ++ now, rest, IterExit.timeoutBreak)
            else iter_as_available_loop exists_at timeout fuel (t + 1)
                (yielded ++ now) rest
        | none =>
            iter_as_available_loop exists_at timeout fuel (t + 1)
              (yielded ++ now) rest

/-- Embeds `Map.iter_as_available`: the pending set starts as all of the
map's output paths; iteration begins at elapsed time 0 with nothing yet
yielded. -/
def iter_as_available (hashes : List Hash) (exists_at : Nat → Hash → Bool)
    (timeout : Option Nat) (fuel : Nat) : List Hash × List Hash × IterExit :=
  iter_as_available_loop exists_at timeout fuel 0 [] hashes

/-- C9 (refutation): when `iter_as_available` reaches timeout expiry
with its pending set still non-empty, the generator ends by a silent
`break` — normal iterator exhaustion, with the pending hash still
pending and nothing raised — rather than raising the `TimeoutError`
its own docstring promises. -/
theorem iter_as_available_timeout_silent_break :
    iter_as_available ["a"] (fun _ _ => false) (some 0) 5
      = ([], ["a"], IterExit.timeoutBreak) := by
  rfl

/-- Modelled from the spec: `utils.wait_for_path_to_exist` (the utils
module is not part of the provided source).  Per the spec's retrieval
contract, the call "polls until the artifact exists or the timeout
elapses" on the default one-second interval, is a pure existence check
(non-blocking) when the timeout is at most zero, and raises
`TimeoutError` on expiry; with no timeout it waits forever.  `exists_at
t` is whether the path exists after `t` one-second sleeps; the result
carries the number of sleeps actually taken, and `none` means the fuel
ran out before the loop decided (the unbounded-wait case). -/
def wait_for_path_to_exist (exists_at : Nat → Bool) (timeout : Option Int) :
    Nat → Nat → Option (Except PyErr Unit × Nat)
  | 0, _ => none
  | fuel + 1, t =>
      if exists_at t then some (Except.ok (), t)
      else
        match timeout with
        | some T =>
            if T ≤ (t : Int) then some (Except.error PyErr.Timeout, t)
            else wait_for_path_to_exist exists_at timeout fuel (t + 1)
        | none => wait_for_path_to_exist exists_at timeout fuel (t + 1)

/-- Embeds `Map.get`: resolve the hash for the input index (Python's
`self.hashes[item]` raises `IndexError` out of range), wait for the
artifact path, and on a `TimeoutError` re-raise it as `OutputNotFound`
when `timeout <= 0` (a peek was requested, not a wait) or propagate the
`TimeoutError` otherwise; on success return the deserialized output
(`htio.load_object`).  `store t h` is the artifact content for hash `h`
after `t` sleeps; the second component counts the sleeps taken. -/
def map_get (hashes : List Hash) (store : Nat → Hash → Option String)
    (item : Nat) (timeout : Option Int) (fuel : Nat) :
    Option (Except PyErr String × Nat) :=
  match hashes.get? item with
  | none => some (Except.error PyErr.IndexError, 0)
  | some h =>
      match wait_for_path_to_exist (fun t => (store t h).isSome) timeout fuel 0 with
      | none => none
      | some (Except.ok _, t) =>
          match store t h with
          | some v => some (Except.ok v, t)
          | none => some (Except.error PyErr.FileNotFoundError, t)
      | some (Except.error _, t) =>
          match timeout with
          | some T =>
              if T ≤ 0 then some (Except.error PyErr.OutputNotFound, t)
              else some (Except.error PyErr.Timeout, t)
          | none => some (Except.error PyErr.Timeout, t)

theorem wait_always_absent (exists_at : Nat → Bool)
    (hex : ∀ u, exists_at u = false) (T : Nat) :
    ∀ fuel t, t ≤ T → T - t < fuel →
      wait_for_path_to_exist exists_at (some (T : Int)) fuel t
        = some (Except.error PyErr.Timeout, T) := by
  intro fuel
  induction fuel with
  | zero => intro t _ hfuel; omega
  | succ n ih =>
      intro t hle hfuel
      rw [wait_for_path_to_exist, hex t]
      simp only [Bool.false_eq_true, if_false]
      by_cases ht : t = T
      · subst ht
        rw [if_pos (by omega)]
      · rw [if_neg (by
          simp only [not_le]
          exact_mod_cast Nat.lt_of_le_of_ne hle ht)]
        exact ih (t + 1) (by omega) (by omega)

/-- C4: `get(i, timeout)` with `timeout <= 0` is a pure existence check
that never sleeps (zero sleeps taken): if the artifact for the index's
hash is absent it fails with `OutputNotFound`, not `TimeoutError`, and
if present it returns the deserialized output; with a positive timeout
and the artifact never appearing, it fails with `TimeoutError` after
the wall-clock budget elapses. -/
theorem get_nonpositive_timeout_behavior (hashes : List Hash)
    (store : Nat → Hash → Option String) (item : Nat) (h : Hash)
    (hitem : hashes.get? item = some h) :
    (∀ T : Int, T ≤ 0 → store 0 h = none → ∀ fuel,
        map_get hashes store item (some T) (fuel + 1)
          = some (Except.error PyErr.OutputNotFound, 0))
    ∧ (∀ T : Int, T ≤ 0 → ∀ v, store 0 h = some v → ∀ fuel,
        map_get hashes store item (some T) (fuel + 1)
          = some (Except.ok v, 0))
    ∧ (∀ T : Nat, 0 < T → (∀ t, store t h = none) → ∀ fuel, T < fuel →
        map_get hashes store item (some (T : Int)) fuel
          = some (Except.error PyErr.Timeout, T)) := by
  refine ⟨?_, ?_, ?_⟩
  · intro T hT habs fuel
    simp only [map_get, hitem]
    rw [show wait_for_path_to_exist (fun t => (store t h).isSome) (some T) (fuel + 1) 0
          = some (Except.error PyErr.Timeout, 0) by
        rw [wait_for_path_to_exist]
        simp only [habs, Option.isSome_none, Bool.false_eq_true, if_false]
        rw [if_pos (le_trans hT (by exact_mod_cast Nat.zero_le 0))]]
    simp only [if_pos hT]
  · intro T hT v hsome fuel
    simp only [map_get, hitem]
    rw [show wait_for_path_to_exist (fun t => (store t h).isSome) (some T) (fuel + 1) 0
          = some (Except.ok (), 0) by
        rw [wait_for_path_to_exist]
        simp only [hsome, Option.isSome_some, if_true]]
    simp only [hsome]
  · intro T hT habs fuel hfuel
    simp only [map_get, hitem]
    have hex : ∀ u, ((store u h).isSome) = false := by
      intro u; rw [habs u]; rfl
    obtain ⟨n, rfl⟩ : ∃ n, fuel = n + 1 := ⟨fuel - 1, by omega⟩
    rw [wait_always_absent _ hex T (n + 1) 0 (Nat.zero_le T) (by omega)]
    have hTle : ¬((T : Int) ≤ 0) := by exact_mod_cast Nat.not_le.mpr hT
    simp only [if_neg hTle]

/-- Witness for C4: a one-hash map with an always-empty store:
`get(0, timeout = 0)` fails with `OutputNotFound` after zero sleeps,
and `get(0, timeout = 3)` fails with `TimeoutError` after three. -/
theorem get_nonpositive_timeout_behavior_witness :
    map_get ["h"] (fun _ _ => none) 0 (some 0) 1
        = some (Except.error PyErr.OutputNotFound, 0)
    ∧ map_get ["h"] (fun _ _ => none) 0 (some 3) 10
        = some (Except.error PyErr.Timeout, 3) :=
  ⟨(get_nonpositive_timeout_behavior ["h"] (fun _ _ => none) 0 "h" rfl).1
      0 (by decide) rfl 0,
   (get_nonpositive_timeout_behavior ["h"] (fun _ _ => none) 0 "h" rfl).2.2
      3 (by decide) (fun _ => rfl) 10 (by decide)⟩

/-- One entry of the durable item-data bundle
(`htio.load_itemdata`): the dict for one input, keyed by its hash. -/
structure ItemDict where
  hash : Hash
  data : String
deriving DecidableEq, Repr

/-- The durable state of a map that `_rerun` touches: the hash
sequence, the batch-id history, the outputs directory (stem plus raw
artifact bytes), and the item-data bundle. -/
structure RerunMap where
  hashes : List Hash
  cluster_ids : List Nat
  outputs : List (Hash × String)
  itemdata : List ItemDict
deriving DecidableEq, Repr

/-- The artifact stems present in the outputs directory. -/
def done_stems (outputs : List (Hash × String)) : List Hash :=
  outputs.map Prod.fst

/-- Embeds `itemdata_by_hash = {d['hash']: d for d in itemdata}` followed
by lookup: in a dict comprehension a later entry overwrites an earlier
one with the same key, so the lookup finds the last matching entry. -/
def dict_by_hash (itemdata : List ItemDict) (h : Hash) : Option ItemDict :=
  (itemdata.filter (fun d => d.hash == h)).getLast?

/-- Embeds `Map._rerun(hashes)`: remove the map's components from the
scheduler queue (a scheduler action with no local state change), load
the full item-data bundle, filter it to the target hash subset
(`KeyError` if a target hash has no item data), resubmit with the
stored template, and append the new batch id to `cluster_ids`.  The
result is the new map state and the item-data actually resubmitted. -/
def map_rerun (st : RerunMap) (hs : List Hash) (new_cid : Nat) :
    Except PyErr (RerunMap × List ItemDict) :=
  match hs.mapM (dict_by_hash st.itemdata) with
  | none => Except.error PyErr.KeyError
  | some new_itemdata =>
      Except.ok
        (⟨st.hashes, st.cluster_ids ++ [new_cid], st.outputs, st.itemdata⟩,
          new_itemdata)

/-- Embeds `Map.rerun_incomplete`: `self._rerun(hashes = self._missing_hashes)`. -/
def rerun_incomplete (st : RerunMap) (new_cid : Nat) :
    Except PyErr (RerunMap × List ItemDict) :=
  map_rerun st (missing_hashes st.hashes (done_stems st.outputs)) new_cid

theorem getLast?_mem_of_eq_some {α : Type} (l : List α) (a : α)
    (h : l.getLast? = some a) : a ∈ l := by
  induction l with
  | nil => simp [List.getLast?] at h
  | cons x xs ih =>
      cases xs with
      | nil =>
          simp [List.getLast?] at h
          simp [h]
      | cons y ys =>
          rw [List.getLast?_cons_cons] at h
          exact List.mem_cons_of_mem x (ih h)

theorem dict_by_hash_key (itemdata : List ItemDict) (h : Hash) (d : ItemDict)
    (hd : dict_by_hash itemdata h = some d) : d.hash = h := by
  have hmem : d ∈ itemdata.filter (fun d => d.hash == h) :=
    getLast?_mem_of_eq_some _ _ hd
  have := (List.mem_filter.mp hmem).2
  simpa using this

theorem mapM_dict_by_hash (itemdata : List ItemDict) :
    ∀ l : List Hash, (∀ h ∈ l, (dict_by_hash itemdata h).isSome = true) →
      ∃ items, l.mapM (dict_by_hash itemdata) = some items
        ∧ items.map ItemDict.hash = l := by
  intro l
  induction l with
  | nil => intro _; exact ⟨[], rfl, rfl⟩
  | cons h rest ih =>
      intro hall
      obtain ⟨d, hd⟩ := Option.isSome_iff_exists.mp
        (hall h (List.mem_cons_self h rest))
      obtain ⟨items, hitems, hmap⟩ :=
        ih (fun x hx => hall x (List.mem_cons_of_mem h hx))
      refine ⟨d :: items, ?_, ?_⟩
      · rw [List.mapM_cons, hd, hitems]
        rfl
      · rw [List.map_cons, hmap, dict_by_hash_key itemdata h d hd]

/-- C7: `rerun_incomplete()` resubmits exactly the currently-missing
hashes, filtered from the full durable item-data bundle; the outputs
directory (hence every already-completed artifact, byte for byte), the
hash sequence, and the item-data bundle are untouched; and exactly one
new batch id is appended to `cluster_ids` with all prior batch ids
preserved. -/
theorem rerun_incomplete_resubmits_missing (st : RerunMap) (new_cid : Nat)
    (hcov : ∀ h ∈ missing_hashes st.hashes (done_stems st.outputs),
      (dict_by_hash st.itemdata h).isSome = true) :
    ∃ items,
      rerun_incomplete st new_cid
          = Except.ok
              (⟨st.hashes, st.cluster_ids ++ [new_cid], st.outputs,
                  st.itemdata⟩, items)
      ∧ items.map ItemDict.hash
          = missing_hashes st.hashes (done_stems st.outputs) := by
  obtain ⟨items, hitems, hmap⟩ := mapM_dict_by_hash st.itemdata
    (missing_hashes st.hashes (done_stems st.outputs)) hcov
  refine ⟨items, ?_, hmap⟩
  rw [rerun_incomplete, map_rerun, hitems]

/-- Witness for C7: map with hashes [a,b,c], artifacts present for a
and c, full item-data bundle; rerunning the incomplete part resubmits
exactly the item for b and appends batch id 7 to history [1]. -/
theorem rerun_incomplete_resubmits_missing_witness :
    rerun_incomplete
        ⟨["a", "b", "c"], [1], [("a", "outA"), ("c", "outC")],
          [⟨"a", "dataA"⟩, ⟨"b", "dataB"⟩, ⟨"c", "dataC"⟩]⟩ 7
      = Except.ok
          (⟨["a", "b", "c"], [1] ++ [7], [("a", "outA"), ("c", "outC")],
            [⟨"a", "dataA"⟩, ⟨"b", "dataB"⟩, ⟨"c", "dataC"⟩]⟩,
            [⟨"b", "dataB"⟩]) := by
  obtain ⟨items, heq, hmap⟩ := rerun_incomplete_resubmits_missing
    ⟨["a", "b", "c"], [1], [("a", "outA"), ("c", "outC")],
      [⟨"a", "dataA"⟩, ⟨"b", "dataB"⟩, ⟨"c", "dataC"⟩]⟩ 7 (by decide)
  rw [heq]
  have : items = [⟨"b", "dataB"⟩] := by
    have heval : rerun_incomplete
        ⟨["a", "b", "c"], [1], [("a", "outA"), ("c", "outC")],
          [⟨"a", "dataA"⟩, ⟨"b", "dataB"⟩, ⟨"c", "dataC"⟩]⟩ 7
        = Except.ok
            (⟨["a", "b", "c"], [1, 7], [("a", "outA"), ("c", "outC")],
              [⟨"a", "dataA"⟩, ⟨"b", "dataB"⟩, ⟨"c", "dataC"⟩]⟩,
              [⟨"b", "dataB"⟩]) := by rfl
    rw [heval] at heq
    exact (Prod.mk.injEq _ _ _ _).mp (Except.ok.injEq _ _ |>.mp heq.symm) |>.2
  rw [this]

end Htmap
